import Mathlib

/-!
Verification of the natural-language specification of the aegea ECS module
(`src/aegea/ecs.py` and `src/aegea/ls.py`) against a shallow embedding of the
code.  External AWS calls are modelled as trace events; responses of the
environment are supplied by an explicit oracle structure.
-/

namespace AegeaECS

/-! ## Errors and task data -/

/-- Errors a workflow step can raise: an unguarded list-index error
(Python `IndexError`) or an API error surfaced by a client call. -/
inductive Err where
  | indexError
  | apiError (msg : String)
  deriving DecidableEq

/-- One entry of the `tasks` list of a run-task or describe-tasks response:
the fields `run` reads (`taskArn`, `lastStatus`). -/
structure ECSTask where
  taskArn : String
  lastStatus : String
  deriving DecidableEq

/-- The run-task response: the `tasks` list that `run` indexes into, and the
`failures` field that is present in the response but never read by the code. -/
structure RunTaskResponse where
  tasks : List ECSTask
  failures : List String
  deriving DecidableEq

/-! ## ARN parsing

The `ARN` helper class lives in `aegea/util/aws`, which is not under `src/`;
only its caller `run` (ecs.py line 104) is.  It is modelled from the spec. -/

/-- Split a character list at every occurrence of `sep` (model of Python
`str.split(sep)` for a one-character separator). -/
def splitOnChar (sep : Char) : List Char → List (List Char)
  | [] => [[]]
  | c :: cs =>
    match splitOnChar sep cs with
    | [] => [[]]
    | g :: gs => if c = sep then [] :: g :: gs else (c :: g) :: gs

/-- Join character groups with `sep` between them (model of Python
`sep.join(groups)` for a one-character separator). -/
def joinChar (sep : Char) : List (List Char) → List Char
  | [] => []
  | [g] => g
  | g :: gs => g ++ sep :: joinChar sep gs

/-- Python `s.split(sep)` for a one-character separator, at `String` level. -/
def pySplit (sep : Char) (s : String) : List String :=
  (splitOnChar sep s.data).map fun cs => String.mk cs

/-- Modelled from the spec: the `ARN` class of `aegea.util.aws` (not under
`src/`).  Per the spec an ARN has the shape
`arn:partition:service:region:account:resource`; the `resource` attribute is
everything after the fifth colon (Python `arn.split(":", 5)`, last element). -/
def arnResource (s : String) : String :=
  String.mk (joinChar ':' ((splitOnChar ':' s.data).drop 5))

/-- The instance-id extraction of `run` (ecs.py line 104):
`ARN(task_arn).resource.split("/")[1]`.  Returns `none` when the resource
portion has fewer than two `/`-separated segments (Python `IndexError`). -/
def taskUuid (arn : String) : Option String :=
  (pySplit '/' (arnResource arn))[1]?

/-- A new-format ECS task ARN: the resource portion has a resource type, a
cluster-name segment and an instance-id segment. -/
def mkTaskArnNew (cluster tid : String) : String :=
  "arn:aws:ecs:region:account:task/" ++ cluster ++ "/" ++ tid

/-- An old-format ECS task ARN: the resource portion has a resource type and
an instance-id segment only. -/
def mkTaskArnOld (tid : String) : String :=
  "arn:aws:ecs:region:account:task/" ++ tid

/-! ## Trace events for the `run` workflow -/

/-- The `awsvpcConfiguration` of the network configuration passed to
run-task (ecs.py lines 90-98). -/
structure AwsvpcConfiguration where
  subnets : List String
  securityGroups : List String
  assignPublicIp : String
  deriving DecidableEq

/-- The `logConfiguration` built by `run` (ecs.py lines 66-73).  The field
`awslogsStreamPfx` models the `awslogs-stream-prefix` option. -/
structure LogConfig where
  logDriver : String
  awslogsRegion : String
  awslogsGroup : String
  awslogsStreamPfx : String
  deriving DecidableEq

/-- The container definition built by `run` (ecs.py lines 75-79). -/
structure ContainerDefn where
  name : String
  image : Option String
  memory : Option Int
  command : List String
  logConfiguration : LogConfig
  deriving DecidableEq

/-- The register-task-definition request built by `run` (ecs.py lines 82-89). -/
structure TaskDefnRequest where
  family : String
  containerDefinitions : List ContainerDefn
  requiresCompatibilities : List String
  executionRoleArn : String
  taskRoleArn : String
  networkMode : String
  cpu : Option String
  memory : Option String
  deriving DecidableEq

/-- One external call or observable action performed by `run`.  `ensureIamRole`
carries the trust and policy arguments when the call site passes them and
`none` when it relies on the callee's defaults. -/
inductive Call where
  | ensureVpc
  | createCluster (name : String)
  | ensureLogGroup (name : String)
  | ensureIamRole (name : String) (trust policies : Option (List String))
  | registerTaskDefinition (req : TaskDefnRequest)
  | ensureSecurityGroup (name : String)
  | runTask (cluster taskDefinition launchType : String)
      (networkConfiguration : AwsvpcConfiguration)
  | describeTasks (cluster : String) (tasks : List String)
  | printLine (s : String)
  | sleep (seconds : Nat)
  | readLogs (streamName logGroupName : String)
  deriving DecidableEq

/-- Result of the workflow: success, a raised error, or fuel exhaustion of the
bounded model of the unbounded polling loop. -/
inductive Outcome where
  | ok
  | err (e : Err)
  | fuelOut
  deriving DecidableEq

/-! ## Arguments and environment -/

/-- The argparse arguments consumed by `run` (ecs.py lines 120-129).
`none` models a Python `None` default. -/
structure RunArgs where
  command : List String
  execution_role : String
  task_role : String
  security_group : String
  cluster : String
  task_name : String
  memory : Option Int
  fargate_cpu : Option String
  fargate_memory : Option String
  image : Option String

/-- Oracle for the external environment of one `run` invocation: the region,
the subnets of the ensured VPC, role-name-to-ARN and security-group-name-to-id
resolution, the run-task response, the successive describe-tasks responses
(indexed by call number), and the log events the log reader yields. -/
structure Env where
  region : String
  subnets : List String
  roleArn : String → String
  sgId : String → String
  runTaskResp : RunTaskResponse
  describeResp : Nat → Except Err (List ECSTask)
  logEvents : List String

/-- The module name of `aegea/ecs.py` (`__name__`). -/
def moduleName : String := "aegea.ecs"

/-- Python `s.replace(old, new)` for a one-character pattern and replacement,
where it coincides with a character-wise map. -/
def pyReplaceChar (old new : Char) (s : String) : String :=
  String.mk (s.data.map fun c => if c = old then new else c)

/-- The argparse defaults of the `run`/`launch` subcommand
(ecs.py lines 120-129): roles and security group default to `__name__`,
cluster and task name to `__name__.replace(".", "_")`; memory, Fargate CPU,
Fargate memory and image have no default (`None`). -/
def runParserDefaults : RunArgs :=
  { command := []
    execution_role := moduleName
    task_role := moduleName
    security_group := moduleName
    cluster := pyReplaceChar '.' '_' moduleName
    task_name := pyReplaceChar '.' '_' moduleName
    memory := none
    fargate_cpu := none
    fargate_memory := none
    image := none }

/-! ## The `run` workflow (ecs.py lines 63-113) -/

/-- The log configuration `run` builds (ecs.py lines 66-73). -/
def logConfigOf (args : RunArgs) (env : Env) : LogConfig :=
  { logDriver := "awslogs"
    awslogsRegion := env.region
    awslogsGroup := args.task_name
    awslogsStreamPfx := args.task_name }

/-- The container definition `run` builds (ecs.py lines 75-79). -/
def containerDefnOf (args : RunArgs) (env : Env) : ContainerDefn :=
  { name := args.task_name
    image := args.image
    memory := args.memory
    command := args.command
    logConfiguration := logConfigOf args env }

/-- The register-task-definition request `run` issues (ecs.py lines 82-89). -/
def taskDefnOf (args : RunArgs) (env : Env) : TaskDefnRequest :=
  { family := args.task_name
    containerDefinitions := [containerDefnOf args env]
    requiresCompatibilities := ["FARGATE"]
    executionRoleArn := env.roleArn args.execution_role
    taskRoleArn := env.roleArn args.task_role
    networkMode := "awsvpc"
    cpu := args.fargate_cpu
    memory := args.fargate_memory }

/-- The network configuration `run` builds (ecs.py lines 90-98). -/
def networkConfigOf (args : RunArgs) (env : Env) : AwsvpcConfiguration :=
  { subnets := env.subnets
    securityGroups := [env.sgId args.security_group]
    assignPublicIp := "ENABLED" }

/-- The calls `run` performs before and including run-task, in source order
(ecs.py lines 64-102): ensure VPC, create cluster, ensure log group, ensure
execution role, ensure task role, register task definition, ensure security
group, run-task with launch type FARGATE. -/
def provisionCalls (args : RunArgs) (env : Env) : List Call :=
  [Call.ensureVpc,
   Call.createCluster args.cluster,
   Call.ensureLogGroup args.task_name,
   Call.ensureIamRole args.execution_role (some ["ecs-tasks"])
     (some ["service-role/AWSBatchServiceRole"]),
   Call.ensureIamRole args.task_role none none,
   Call.registerTaskDefinition (taskDefnOf args env),
   Call.ensureSecurityGroup args.security_group,
   Call.runTask args.cluster args.task_name "FARGATE" (networkConfigOf args env)]

/-- The observable actions of one iteration of the polling loop
(ecs.py lines 106-109): print the task ARN and current status, sleep one
second, call describe-tasks. -/
def pollBlock (cluster taskArn status : String) : List Call :=
  [Call.printLine (taskArn ++ " " ++ status), Call.sleep 1,
   Call.describeTasks cluster [taskArn]]

/-- The polling loop of `run` (ecs.py lines 106-109), with an explicit fuel
bound standing in for the unbounded `while`.  `curTasks` is the `tasks` list
of the current response, `k` the index of the next describe-tasks call. -/
def watchLoop (describeResp : Nat → Except Err (List ECSTask))
    (cluster taskArn : String) : Nat → List ECSTask → Nat → List Call × Outcome
  | 0, _, _ => ([], Outcome.fuelOut)
  | fuel + 1, curTasks, k =>
    match curTasks[0]? with
    | none => ([], Outcome.err Err.indexError)
    | some t =>
      if t.lastStatus = "STOPPED" then ([], Outcome.ok)
      else
        match describeResp k with
        | Except.error e => (pollBlock cluster taskArn t.lastStatus, Outcome.err e)
        | Except.ok newTasks =>
          (pollBlock cluster taskArn t.lastStatus ++
             (watchLoop describeResp cluster taskArn fuel newTasks (k + 1)).1,
           (watchLoop describeResp cluster taskArn fuel newTasks (k + 1)).2)

/-- The whole `run` workflow (ecs.py lines 63-113): provisioning calls,
run-task, the unguarded `res["tasks"][0]` index, the ARN-to-instance-id
extraction, the polling loop, and finally the log read over the stream
`"/".join([task_name, task_name, task_uuid])` with the task name as the log
group, printing every log event message. -/
def run (args : RunArgs) (env : Env) (fuel : Nat) : List Call × Outcome :=
  match env.runTaskResp.tasks[0]? with
  | none => (provisionCalls args env, Outcome.err Err.indexError)
  | some t0 =>
    match taskUuid t0.taskArn with
    | none => (provisionCalls args env, Outcome.err Err.indexError)
    | some uuid =>
      match watchLoop env.describeResp args.cluster t0.taskArn fuel
          env.runTaskResp.tasks 0 with
      | (wtr, Outcome.ok) =>
        (provisionCalls args env ++ wtr ++
          (Call.readLogs (String.intercalate "/" [args.task_name, args.task_name, uuid])
              args.task_name ::
            env.logEvents.map Call.printLine),
         Outcome.ok)
      | (wtr, o) => (provisionCalls args env ++ wtr, o)

/-! ## Call classification -/

/-- Provisioning and launch calls (everything up to and including run-task). -/
def isProvisionCall : Call → Bool
  | Call.ensureVpc => true
  | Call.createCluster _ => true
  | Call.ensureLogGroup _ => true
  | Call.ensureIamRole _ _ _ => true
  | Call.registerTaskDefinition _ => true
  | Call.ensureSecurityGroup _ => true
  | Call.runTask _ _ _ _ => true
  | _ => false

/-- Calls that the polling loop can perform. -/
def isPollCall : Call → Bool
  | Call.printLine _ => true
  | Call.sleep _ => true
  | Call.describeTasks _ _ => true
  | _ => false

/-- Describe-tasks calls. -/
def isDescribeCall : Call → Bool
  | Call.describeTasks _ _ => true
  | _ => false

/-- Printed lines. -/
def isPrintCall : Call → Bool
  | Call.printLine _ => true
  | _ => false

/-- Sleep calls. -/
def isSleepCall : Call → Bool
  | Call.sleep _ => true
  | _ => false

/-- Task-definition registration calls. -/
def isRegisterCall : Call → Bool
  | Call.registerTaskDefinition _ => true
  | _ => false

/-- Run-task calls. -/
def isRunTaskCall : Call → Bool
  | Call.runTask _ _ _ _ => true
  | _ => false

/-- Log-read calls. -/
def isReadLogsCall : Call → Bool
  | Call.readLogs _ _ => true
  | _ => false

/-- The trace of `n` poll iterations starting at status index `k`, for a status
sequence `stat` (`stat 0` is the initial status from the run-task response,
`stat (j+1)` the status returned by the `j`-th describe-tasks call). -/
def iterTrace (stat : Nat → String) (taskArn cluster : String) :
    Nat → Nat → List Call
  | _, 0 => []
  | k, n + 1 =>
    pollBlock cluster taskArn (stat k) ++ iterTrace stat taskArn cluster (k + 1) n

/-! ## Provisioning world model

The `ensure_*` helpers live in `aegea/util/aws`, which is not under `src/`;
their semantics (and the create-or-get behaviour of the cluster and
task-definition service calls) are modelled from the spec. -/

/-- Modelled from the spec: create-or-get semantics of the `ensure_*` helpers
of `aegea.util.aws` (not under `src/`) and of create-cluster — return the
existing resource when present, create it otherwise, never failing. -/
def createOrGet (name : String) (l : List String) : List String :=
  if name ∈ l then l else l ++ [name]

/-- Modelled from the spec: the externally owned provisioned state one `run`
invocation touches — existing clusters, log groups, IAM roles, security
groups, and the number of registered task-definition versions per family. -/
structure World where
  clusters : List String
  logGroups : List String
  roles : List String
  securityGroups : List String
  taskDefVersions : String → Nat

/-- Modelled from the spec: register-task-definition always registers a fresh
version under the family, one larger than the count so far (never
deduplicated or skipped). -/
def registerVersionW (family : String) (w : World) : World × Nat :=
  let v := w.taskDefVersions family + 1
  ({ w with taskDefVersions := fun f => if f = family then v else w.taskDefVersions f }, v)

/-- The provisioning steps of `run` (ecs.py lines 64-98) applied to the
provisioned-state model, in source order; returns the new state and the
task-definition version registered by this invocation. -/
def runProvisionW (args : RunArgs) (w : World) : World × Nat :=
  let w1 := { w with clusters := createOrGet args.cluster w.clusters }
  let w2 := { w1 with logGroups := createOrGet args.task_name w1.logGroups }
  let w3 := { w2 with
    roles := createOrGet args.task_role (createOrGet args.execution_role w2.roles) }
  let p := registerVersionW args.task_name w3
  ({ p.1 with
      securityGroups := createOrGet args.security_group p.1.securityGroups }, p.2)

/-! ## The `tasks` listing subcommand (ecs.py lines 41-55) -/

/-- The keyword arguments of one list-tasks query; `none` models an absent key. -/
structure ListTasksQuery where
  cluster : Option String
  launchType : Option String
  desiredStatus : Option String
  deriving DecidableEq

/-- External calls of the `tasks` subcommand. -/
inductive TCall where
  | listTasks (q : ListTasksQuery)
  | describeTasks (cluster : Option String) (tasks : List String)
  | pageOutput
  deriving DecidableEq

/-- The argparse arguments consumed by `tasks` (ecs.py lines 57-61). -/
structure TasksArgs where
  tasks : List String
  cluster : Option String
  launch_type : Option String
  desired_status : Option String

/-- Oracle for the `tasks` subcommand: results of paginated list-tasks queries
and of describe-tasks. -/
structure TasksEnv where
  listTasks : ListTasksQuery → List String
  describeTasks : Option String → List String → List String

/-- Python truthiness of an optional string argument (`if args.cluster:`):
present and non-empty. -/
def truthyStr : Option String → Bool
  | none => false
  | some s => !(s == "")

/-- The `list_tasks_args` dictionary built by `tasks` (ecs.py lines 42-48):
each key is present exactly when the corresponding argument is truthy. -/
def tasksQuery (args : TasksArgs) : ListTasksQuery :=
  { cluster := if truthyStr args.cluster then args.cluster else none
    launchType := if truthyStr args.launch_type then args.launch_type else none
    desiredStatus := if truthyStr args.desired_status then args.desired_status else none }

/-- The `tasks` subcommand (ecs.py lines 41-55): when no explicit task ids are
given, run a paginated list-tasks query, and when no desired status was given,
append the result of a second query with desired status STOPPED; then describe
the collected ids (if any) and page the output.  Returns the trace and the
described task list. -/
def tasksCmd (args : TasksArgs) (env : TasksEnv) : List TCall × List String :=
  let q := tasksQuery args
  let p :=
    if args.tasks.isEmpty then
      let r1 := env.listTasks q
      if truthyStr args.desired_status then
        ([TCall.listTasks q], r1)
      else
        let q2 := { q with desiredStatus := some "STOPPED" }
        ([TCall.listTasks q, TCall.listTasks q2], r1 ++ env.listTasks q2)
    else ([], args.tasks)
  if p.2.isEmpty then
    (p.1 ++ [TCall.pageOutput], [])
  else
    (p.1 ++ [TCall.describeTasks args.cluster p.2, TCall.pageOutput],
     env.describeTasks args.cluster p.2)

/-! ## Concrete instances used in the closed corollaries -/

/-- A concrete status sequence: RUNNING once, then STOPPED. -/
def statW2 : Nat → String := fun i => if i = 0 then "RUNNING" else "STOPPED"

/-- A concrete old-format task ARN. -/
def arnW2 : String := "arn:aws:ecs:us-east-1:123456789012:task/deadbeef"

/-- A concrete environment whose task runs for one poll iteration. -/
def envW2 : Env :=
  { region := "us-east-1"
    subnets := ["subnet-0"]
    roleArn := fun n => "arn:aws:iam::123456789012:role/" ++ n
    sgId := fun _ => "sg-0"
    runTaskResp := { tasks := [{ taskArn := arnW2, lastStatus := "RUNNING" }], failures := [] }
    describeResp := fun _ => Except.ok [{ taskArn := arnW2, lastStatus := "STOPPED" }]
    logEvents := ["hi"] }

/-- A concrete task ARN for the log-naming corollary. -/
def arnW3 : String := "arn:aws:ecs:us-east-1:123456789012:task/cafebabe"

/-- A concrete environment whose task is already stopped at submission. -/
def envW3 : Env :=
  { region := "us-east-1"
    subnets := ["subnet-0"]
    roleArn := fun n => "arn:aws:iam::123456789012:role/" ++ n
    sgId := fun _ => "sg-0"
    runTaskResp := { tasks := [{ taskArn := arnW3, lastStatus := "STOPPED" }], failures := [] }
    describeResp := fun _ => Except.ok [{ taskArn := arnW3, lastStatus := "STOPPED" }]
    logEvents := ["hi"] }

/-- A constant RUNNING status sequence. -/
def statW4 : Nat → String := fun _ => "RUNNING"

/-- A concrete task ARN for the poll-error corollary. -/
def arnW4 : String := "arn:aws:ecs:us-east-1:123456789012:task/feedface"

/-- A concrete environment whose first describe-tasks call raises an error. -/
def envW4 : Env :=
  { region := "us-east-1"
    subnets := ["subnet-0"]
    roleArn := fun n => "arn:aws:iam::123456789012:role/" ++ n
    sgId := fun _ => "sg-0"
    runTaskResp := { tasks := [{ taskArn := arnW4, lastStatus := "RUNNING" }], failures := [] }
    describeResp := fun _ => Except.error (Err.apiError "throttled")
    logEvents := [] }

/-- A concrete task ARN for the call-sequence corollary. -/
def arnW5 : String := "arn:aws:ecs:us-east-1:123456789012:task/0badf00d"

/-- A concrete environment whose task is already stopped at submission. -/
def envW5 : Env :=
  { region := "us-east-1"
    subnets := ["subnet-0"]
    roleArn := fun n => "arn:aws:iam::123456789012:role/" ++ n
    sgId := fun _ => "sg-0"
    runTaskResp := { tasks := [{ taskArn := arnW5, lastStatus := "STOPPED" }], failures := [] }
    describeResp := fun _ => Except.ok [{ taskArn := arnW5, lastStatus := "STOPPED" }]
    logEvents := ["done"] }

/-- A concrete task ARN for the termination corollary. -/
def arnW7 : String := "arn:aws:ecs:us-east-1:123456789012:task/00c0ffee"

/-- A constant RUNNING status sequence for the termination corollary. -/
def statW7 : Nat → String := fun _ => "RUNNING"

/-- Describe-tasks responses that always report RUNNING. -/
def dW7 : Nat → Except Err (List ECSTask) :=
  fun _ => Except.ok [{ taskArn := arnW7, lastStatus := "RUNNING" }]

/-- A concrete environment whose run-task response has an empty tasks list. -/
def envW9 : Env :=
  { region := "us-east-1"
    subnets := ["subnet-0"]
    roleArn := fun n => "arn:aws:iam::123456789012:role/" ++ n
    sgId := fun _ => "sg-0"
    runTaskResp := { tasks := [], failures := ["RESOURCE:MEMORY"] }
    describeResp := fun _ => Except.ok []
    logEvents := [] }

/-- Concrete arguments for the listing corollary: no ids, no filters. -/
def argsWA : TasksArgs :=
  { tasks := [], cluster := some "c1", launch_type := none, desired_status := none }

/-- A concrete listing environment for the unfiltered case. -/
def envWA : TasksEnv :=
  { listTasks := fun q => if q.desiredStatus = some "STOPPED" then ["t2"] else ["t1"]
    describeTasks := fun _ ts => ts.map fun t => "desc-" ++ t }

/-- Concrete arguments for the listing corollary: explicit desired status. -/
def argsWB : TasksArgs :=
  { tasks := [], cluster := none, launch_type := none, desired_status := some "RUNNING" }

/-- A concrete listing environment for the filtered case. -/
def envWB : TasksEnv :=
  { listTasks := fun _ => ["t3"]
    describeTasks := fun _ ts => ts.map fun t => "desc-" ++ t }

/-! ## Lemmas about the polling loop -/

theorem iterTrace_zero (stat : Nat → String) (arn cluster : String) (k : Nat) :
    iterTrace stat arn cluster k 0 = [] := rfl

theorem iterTrace_succ (stat : Nat → String) (arn cluster : String) (k n : Nat) :
    iterTrace stat arn cluster k (n + 1) =
      pollBlock cluster arn (stat k) ++ iterTrace stat arn cluster (k + 1) n := rfl

theorem mem_pollBlock_isPoll {c : Call} {cluster arn status : String}
    (h : c ∈ pollBlock cluster arn status) : isPollCall c = true := by
  simp only [pollBlock, List.mem_cons, List.mem_singleton, List.not_mem_nil,
    or_false] at h
  rcases h with h | h | h <;> subst h <;> rfl

theorem mem_iterTrace_isPoll {c : Call} {stat : Nat → String} {arn cluster : String} :
    ∀ {n k : Nat}, c ∈ iterTrace stat arn cluster k n → isPollCall c = true := by
  intro n
  induction n with
  | zero => intro k h; simp [iterTrace] at h
  | succ m ih =>
    intro k h
    rw [iterTrace_succ] at h
    rcases List.mem_append.1 h with h | h
    · exact mem_pollBlock_isPoll h
    · exact ih h

theorem mem_watchLoop_isPoll {d : Nat → Except Err (List ECSTask)}
    {cluster arn : String} {c : Call} :
    ∀ {fuel : Nat} {ct : List ECSTask} {k : Nat},
      c ∈ (watchLoop d cluster arn fuel ct k).1 → isPollCall c = true := by
  intro fuel
  induction fuel with
  | zero => intro ct k h; simp [watchLoop] at h
  | succ m ih =>
    intro ct k h
    rw [watchLoop] at h
    split at h
    · simp at h
    · split at h
      · simp at h
      · split at h
        · exact mem_pollBlock_isPoll h
        · simp only [List.mem_append] at h
          rcases h with h | h
          · exact mem_pollBlock_isPoll h
          · exact ih h

theorem watchLoop_stops {d : Nat → Except Err (List ECSTask)} {cluster arn : String}
    {stat : Nat → String}
    (hdesc : ∀ j, d j = Except.ok [⟨arn, stat (j + 1)⟩]) :
    ∀ n k fuel, (∀ i, i < n → stat (k + i) ≠ "STOPPED") → stat (k + n) = "STOPPED" →
      n < fuel →
      watchLoop d cluster arn fuel [⟨arn, stat k⟩] k =
        (iterTrace stat arn cluster k n, Outcome.ok) := by
  intro n
  induction n with
  | zero =>
    intro k fuel _ hstop hfuel
    obtain ⟨f, rfl⟩ : ∃ f, fuel = f + 1 := ⟨fuel - 1, by omega⟩
    simp only [Nat.add_zero] at hstop
    simp [watchLoop, hstop, iterTrace]
  | succ m ih =>
    intro k fuel hne hstop hfuel
    obtain ⟨f, rfl⟩ : ∃ f, fuel = f + 1 := ⟨fuel - 1, by omega⟩
    have hk : stat k ≠ "STOPPED" := by
      have := hne 0 (Nat.succ_pos m); simpa using this
    have hrec := ih (k + 1) f
      (fun i hi => by
        have := hne (i + 1) (by omega)
        simpa [Nat.add_assoc, Nat.add_comm 1 i] using this)
      (by
        have : k + 1 + m = k + (m + 1) := by omega
        rw [this]; exact hstop)
      (by omega)
    rw [watchLoop]
    simp only [List.getElem?_cons_zero, hk, if_false, hdesc k, hrec, iterTrace_succ]

theorem watchLoop_poll_error {d : Nat → Except Err (List ECSTask)}
    {cluster arn : String} {stat : Nat → String} {e : Err} :
    ∀ j k fuel, (∀ i, i < j → d (k + i) = Except.ok [⟨arn, stat (k + i + 1)⟩]) →
      (∀ i, i ≤ j → stat (k + i) ≠ "STOPPED") → d (k + j) = Except.error e →
      j < fuel →
      watchLoop d cluster arn fuel [⟨arn, stat k⟩] k =
        (iterTrace stat arn cluster k (j + 1), Outcome.err e) := by
  intro j
  induction j with
  | zero =>
    intro k fuel _ hne herr hfuel
    obtain ⟨f, rfl⟩ : ∃ f, fuel = f + 1 := ⟨fuel - 1, by omega⟩
    have hk : stat k ≠ "STOPPED" := by have := hne 0 (Nat.le_refl 0); simpa using this
    simp only [Nat.add_zero] at herr
    rw [watchLoop]
    simp [hk, herr, iterTrace_succ, iterTrace_zero]
  | succ m ih =>
    intro k fuel hok hne herr hfuel
    obtain ⟨f, rfl⟩ : ∃ f, fuel = f + 1 := ⟨fuel - 1, by omega⟩
    have hk : stat k ≠ "STOPPED" := by have := hne 0 (by omega); simpa using this
    have hd0 : d k = Except.ok [⟨arn, stat (k + 1)⟩] := by
      have := hok 0 (Nat.succ_pos m); simpa using this
    have hrec := ih (k + 1) f
      (fun i hi => by
        have := hok (i + 1) (by omega)
        have h1 : k + (i + 1) = k + 1 + i := by omega
        rw [h1] at this; exact this)
      (fun i hi => by
        have := hne (i + 1) (by omega)
        have h1 : k + (i + 1) = k + 1 + i := by omega
        rw [h1] at this; exact this)
      (by
        have h1 : k + 1 + m = k + (m + 1) := by omega
        rw [h1]; exact herr)
      (by omega)
    rw [watchLoop]
    simp only [List.getElem?_cons_zero, hk, if_false, hd0, hrec, iterTrace_succ]

theorem watchLoop_forever {d : Nat → Except Err (List ECSTask)}
    {cluster arn : String} {stat : Nat → String}
    (hdesc : ∀ j, d j = Except.ok [⟨arn, stat (j + 1)⟩])
    (hnostop : ∀ n, stat n ≠ "STOPPED") :
    ∀ fuel k, watchLoop d cluster arn fuel [⟨arn, stat k⟩] k =
      (iterTrace stat arn cluster k fuel, Outcome.fuelOut) := by
  intro fuel
  induction fuel with
  | zero => intro k; simp [watchLoop, iterTrace]
  | succ m ih =>
    intro k
    rw [watchLoop]
    simp only [List.getElem?_cons_zero, hnostop k, if_false, hdesc k, ih (k + 1),
      iterTrace_succ]

theorem watchLoop_ok_stopped {d : Nat → Except Err (List ECSTask)}
    {cluster arn : String} {stat : Nat → String}
    (hdesc : ∀ j, d j = Except.ok [⟨arn, stat (j + 1)⟩]) :
    ∀ fuel k, (watchLoop d cluster arn fuel [⟨arn, stat k⟩] k).2 = Outcome.ok →
      ∃ i, stat (k + i) = "STOPPED" := by
  intro fuel
  induction fuel with
  | zero => intro k h; simp [watchLoop] at h
  | succ m ih =>
    intro k h
    rw [watchLoop] at h
    simp only [List.getElem?_cons_zero] at h
    by_cases hk : stat k = "STOPPED"
    · exact ⟨0, by simpa using hk⟩
    · rw [if_neg hk, hdesc k] at h
      simp only at h
      obtain ⟨i, hi⟩ := ih (k + 1) h
      refine ⟨i + 1, ?_⟩
      have h2 : k + (i + 1) = k + 1 + i := by omega
      rw [h2]; exact hi

theorem iterTrace_countP_print (stat : Nat → String) (arn cluster : String) :
    ∀ n k, (iterTrace stat arn cluster k n).countP isPrintCall = n := by
  intro n
  induction n with
  | zero => intro k; simp [iterTrace]
  | succ m ih =>
    intro k
    rw [iterTrace_succ, List.countP_append, ih (k + 1)]
    have hpb : (pollBlock cluster arn (stat k)).countP isPrintCall = 1 := rfl
    rw [hpb]; omega

theorem iterTrace_countP_describe (stat : Nat → String) (arn cluster : String) :
    ∀ n k, (iterTrace stat arn cluster k n).countP isDescribeCall = n := by
  intro n
  induction n with
  | zero => intro k; simp [iterTrace]
  | succ m ih =>
    intro k
    rw [iterTrace_succ, List.countP_append, ih (k + 1)]
    have hpb : (pollBlock cluster arn (stat k)).countP isDescribeCall = 1 := rfl
    rw [hpb]; omega

theorem iterTrace_filter_sleep (stat : Nat → String) (arn cluster : String) :
    ∀ n k, (iterTrace stat arn cluster k n).filter isSleepCall =
      List.replicate n (Call.sleep 1) := by
  intro n
  induction n with
  | zero => intro k; simp [iterTrace]
  | succ m ih =>
    intro k
    rw [iterTrace_succ, List.filter_append, ih (k + 1)]
    simp [pollBlock, List.filter, isSleepCall, List.replicate_succ]

/-! ## Lemmas about the shape of the `run` trace -/

theorem isPoll_not_provision {c : Call} (h : isPollCall c = true) :
    isProvisionCall c = false := by
  cases c <;> simp [isPollCall, isProvisionCall] at *

theorem isPoll_not_readLogs {c : Call} (h : isPollCall c = true) :
    isReadLogsCall c = false := by
  cases c <;> simp [isPollCall, isReadLogsCall] at *

theorem isPoll_not_register {c : Call} (h : isPollCall c = true) :
    isRegisterCall c = false := by
  cases c <;> simp [isPollCall, isRegisterCall] at *

theorem isPoll_not_runTask {c : Call} (h : isPollCall c = true) :
    isRunTaskCall c = false := by
  cases c <;> simp [isPollCall, isRunTaskCall] at *

theorem isReadLogs_not_provision {c : Call} (h : isReadLogsCall c = true) :
    isProvisionCall c = false := by
  cases c <;> simp [isReadLogsCall, isProvisionCall] at *

theorem provisionCalls_length (args : RunArgs) (env : Env) :
    (provisionCalls args env).length = 8 := rfl

/-- Every branch of `run` produces the provisioning calls followed only by
polling calls and log calls (the log read and log-event prints). -/
theorem run_structure (args : RunArgs) (env : Env) (fuel : Nat) :
    ∃ rest, (run args env fuel).1 = provisionCalls args env ++ rest ∧
      ∀ c ∈ rest, isPollCall c = true ∨ isReadLogsCall c = true := by
  unfold run
  split
  · exact ⟨[], by simp, by simp⟩
  · next t0 h0 =>
    split
    · exact ⟨[], by simp, by simp⟩
    · next uuid hu =>
      split
      · next wtr hw =>
        refine ⟨wtr ++
          (Call.readLogs (String.intercalate "/" [args.task_name, args.task_name, uuid])
              args.task_name :: env.logEvents.map Call.printLine),
          by simp, ?_⟩
        intro c hc
        rcases List.mem_append.1 hc with h | h
        · exact Or.inl (mem_watchLoop_isPoll (by rw [hw]; exact h))
        · rcases List.mem_cons.1 h with h | h
          · subst h; exact Or.inr rfl
          · obtain ⟨m, _, rfl⟩ := List.mem_map.1 h
            exact Or.inl rfl
      · next wtr o hne hw =>
        refine ⟨wtr, by simp, ?_⟩
        intro c hc
        exact Or.inl (mem_watchLoop_isPoll (by rw [hw]; exact hc))

theorem run_take_provision (args : RunArgs) (env : Env) (fuel : Nat) :
    (run args env fuel).1.take 8 = provisionCalls args env := by
  obtain ⟨rest, htr, _⟩ := run_structure args env fuel
  rw [htr]
  have := List.take_left (provisionCalls args env) rest
  rwa [provisionCalls_length] at this

theorem run_drop_provision (args : RunArgs) (env : Env) (fuel : Nat) :
    ∀ c ∈ (run args env fuel).1.drop 8, isPollCall c = true ∨ isReadLogsCall c = true := by
  obtain ⟨rest, htr, hmem⟩ := run_structure args env fuel
  rw [htr]
  have := List.drop_left (provisionCalls args env) rest
  rw [provisionCalls_length] at this
  rw [this]
  exact hmem

theorem run_filter_provision (args : RunArgs) (env : Env) (fuel : Nat) :
    (run args env fuel).1.filter isProvisionCall = provisionCalls args env := by
  obtain ⟨rest, htr, hmem⟩ := run_structure args env fuel
  rw [htr, List.filter_append]
  have h1 : (provisionCalls args env).filter isProvisionCall = provisionCalls args env := rfl
  have h2 : rest.filter isProvisionCall = [] := by
    rw [List.filter_eq_nil_iff]
    intro c hc
    rcases hmem c hc with h | h
    · simp [isPoll_not_provision h]
    · simp [isReadLogs_not_provision h]
  rw [h1, h2, List.append_nil]

theorem run_filter_register (args : RunArgs) (env : Env) (fuel : Nat) :
    (run args env fuel).1.filter isRegisterCall =
      [Call.registerTaskDefinition (taskDefnOf args env)] := by
  obtain ⟨rest, htr, hmem⟩ := run_structure args env fuel
  rw [htr, List.filter_append]
  have h1 : (provisionCalls args env).filter isRegisterCall =
      [Call.registerTaskDefinition (taskDefnOf args env)] := rfl
  have h2 : rest.filter isRegisterCall = [] := by
    rw [List.filter_eq_nil_iff]
    intro c hc
    rcases hmem c hc with h | h
    · simp [isPoll_not_register h]
    · cases c <;> simp [isRegisterCall] <;> simp [isReadLogsCall] at h
  rw [h1, h2, List.append_nil]

theorem run_countP_runTask (args : RunArgs) (env : Env) (fuel : Nat) :
    (run args env fuel).1.countP isRunTaskCall = 1 := by
  obtain ⟨rest, htr, hmem⟩ := run_structure args env fuel
  rw [htr, List.countP_append]
  have h1 : (provisionCalls args env).countP isRunTaskCall = 1 := rfl
  have h2 : rest.countP isRunTaskCall = 0 := by
    rw [List.countP_eq_zero]
    intro c hc
    rcases hmem c hc with h | h
    · simp [isPoll_not_runTask h]
    · cases c <;> simp [isRunTaskCall] <;> simp [isReadLogsCall] at h
  rw [h1, h2]

theorem run_eq_of_noTask {args : RunArgs} {env : Env} {fuel : Nat}
    (h0 : env.runTaskResp.tasks[0]? = none) :
    run args env fuel = (provisionCalls args env, Outcome.err Err.indexError) := by
  simp only [run, h0]

theorem run_eq_of_ok {args : RunArgs} {env : Env} {fuel : Nat} {t0 : ECSTask}
    {u : String} {wtr : List Call}
    (h0 : env.runTaskResp.tasks[0]? = some t0)
    (hu : taskUuid t0.taskArn = some u)
    (hw : watchLoop env.describeResp args.cluster t0.taskArn fuel
        env.runTaskResp.tasks 0 = (wtr, Outcome.ok)) :
    run args env fuel =
      (provisionCalls args env ++ wtr ++
        (Call.readLogs (String.intercalate "/" [args.task_name, args.task_name, u])
            args.task_name ::
          env.logEvents.map Call.printLine),
       Outcome.ok) := by
  simp only [run, h0, hu, hw]

theorem run_eq_of_err {args : RunArgs} {env : Env} {fuel : Nat} {t0 : ECSTask}
    {u : String} {wtr : List Call} {e : Err}
    (h0 : env.runTaskResp.tasks[0]? = some t0)
    (hu : taskUuid t0.taskArn = some u)
    (hw : watchLoop env.describeResp args.cluster t0.taskArn fuel
        env.runTaskResp.tasks 0 = (wtr, Outcome.err e)) :
    run args env fuel = (provisionCalls args env ++ wtr, Outcome.err e) := by
  simp only [run, h0, hu, hw]

theorem run_eq_of_fuelOut {args : RunArgs} {env : Env} {fuel : Nat} {t0 : ECSTask}
    {u : String} {wtr : List Call}
    (h0 : env.runTaskResp.tasks[0]? = some t0)
    (hu : taskUuid t0.taskArn = some u)
    (hw : watchLoop env.describeResp args.cluster t0.taskArn fuel
        env.runTaskResp.tasks 0 = (wtr, Outcome.fuelOut)) :
    run args env fuel = (provisionCalls args env ++ wtr, Outcome.fuelOut) := by
  simp only [run, h0, hu, hw]

/-- After the first log-read call of the trace, only print calls follow:
log reading is the final phase of the workflow. -/
theorem run_tail_after_logs (args : RunArgs) (env : Env) (fuel : Nat) :
    ((((run args env fuel).1.drop 8).dropWhile fun c => !isReadLogsCall c).drop 1).all
      isPrintCall = true := by
  have hdrop : ∀ rest : List Call,
      (provisionCalls args env ++ rest).drop 8 = rest := by
    intro rest
    have := List.drop_left (provisionCalls args env) rest
    rwa [provisionCalls_length] at this
  unfold run
  split
  · rw [← List.append_nil (provisionCalls args env)]
    simp only [hdrop]
    rfl
  · next t0 h0 =>
    split
    · rw [← List.append_nil (provisionCalls args env)]
      simp only [hdrop]
      rfl
    · next uuid hu =>
      split
      · next wtr hw =>
        have hwtr : ∀ c ∈ wtr, isPollCall c = true := by
          intro c hc
          exact mem_watchLoop_isPoll (by rw [hw]; exact hc)
        rw [List.append_assoc]
        simp only [hdrop]
        rw [List.dropWhile_append]
        have h1 : (wtr.dropWhile fun c => !isReadLogsCall c) = [] := by
          rw [List.dropWhile_eq_nil_iff]
          intro c hc
          rw [isPoll_not_readLogs (hwtr c hc)]
          rfl
        rw [h1]
        simp only [List.isEmpty_nil, if_true]
        rw [List.dropWhile_cons]
        simp only [isReadLogsCall, Bool.not_true, List.drop_succ_cons, List.drop_zero]
        rw [List.all_eq_true]
        intro c hc
        obtain ⟨m, _, rfl⟩ := List.mem_map.1 hc
        rfl
      · next wtr o hne hw =>
        have hwtr : ∀ c ∈ wtr, isPollCall c = true := by
          intro c hc
          exact mem_watchLoop_isPoll (by rw [hw]; exact hc)
        simp only [hdrop]
        have h1 : (wtr.dropWhile fun c => !isReadLogsCall c) = [] := by
          rw [List.dropWhile_eq_nil_iff]
          intro c hc
          rw [isPoll_not_readLogs (hwtr c hc)]
          rfl
        rw [h1]
        rfl

/-- The trace never contains more than one log-read call. -/
theorem run_countP_readLogs (args : RunArgs) (env : Env) (fuel : Nat) :
    (run args env fuel).1.countP isReadLogsCall ≤ 1 := by
  have hprov : (provisionCalls args env).countP isReadLogsCall = 0 := rfl
  have hwtr : ∀ wtr : List Call, (∀ c ∈ wtr, isPollCall c = true) →
      wtr.countP isReadLogsCall = 0 := by
    intro wtr h
    rw [List.countP_eq_zero]
    intro c hc
    rw [isPoll_not_readLogs (h c hc)]
    simp
  unfold run
  split
  · simp [hprov]
  · next t0 h0 =>
    split
    · simp [hprov]
    · next uuid hu =>
      split
      · next wtr hw =>
        have h1 := hwtr wtr fun c hc =>
          mem_watchLoop_isPoll (by rw [hw]; exact hc)
        have h2 : (env.logEvents.map Call.printLine).countP isReadLogsCall = 0 := by
          rw [List.countP_eq_zero]
          intro c hc
          obtain ⟨m, _, rfl⟩ := List.mem_map.1 hc
          simp [isReadLogsCall]
        simp [List.countP_append, List.countP_cons, hprov, h1, h2, isReadLogsCall]
      · next wtr o hne hw =>
        have h1 := hwtr wtr fun c hc =>
          mem_watchLoop_isPoll (by rw [hw]; exact hc)
        simp [List.countP_append, hprov, h1]

/-! ## Lemmas about character splitting and joining -/

theorem splitOnChar_ne_nil (sep : Char) : ∀ l : List Char, splitOnChar sep l ≠ [] := by
  intro l
  cases l with
  | nil => simp [splitOnChar]
  | cons c cs =>
    rcases h : splitOnChar sep cs with _ | ⟨g, gs⟩
    · rw [splitOnChar, h]; simp
    · rw [splitOnChar, h]
      split
      · simp
      · split <;> simp

theorem splitOnChar_sep_cons (sep : Char) (l : List Char) :
    splitOnChar sep (sep :: l) = [] :: splitOnChar sep l := by
  rw [splitOnChar]
  rcases h : splitOnChar sep l with _ | ⟨g, gs⟩
  · exact absurd h (splitOnChar_ne_nil sep l)
  · simp

theorem splitOnChar_cons_ne {sep c : Char} (l : List Char) (hc : c ≠ sep)
    {g : List Char} {gs : List (List Char)} (hsplit : splitOnChar sep l = g :: gs) :
    splitOnChar sep (c :: l) = (c :: g) :: gs := by
  rw [splitOnChar, hsplit]
  simp [hc]

theorem joinChar_cons_group (sep c : Char) (g : List Char) (gs : List (List Char)) :
    joinChar sep ((c :: g) :: gs) = c :: joinChar sep (g :: gs) := by
  cases gs <;> simp [joinChar]

theorem joinChar_splitOnChar (sep : Char) : ∀ l : List Char,
    joinChar sep (splitOnChar sep l) = l := by
  intro l
  induction l with
  | nil => simp [splitOnChar, joinChar]
  | cons c cs ih =>
    rcases h : splitOnChar sep cs with _ | ⟨g, gs⟩
    · exact absurd h (splitOnChar_ne_nil sep cs)
    · by_cases hc : c = sep
      · subst hc
        rw [splitOnChar_sep_cons, h]
        rw [h] at ih
        simpa [joinChar] using ih
      · rw [splitOnChar_cons_ne cs hc h, joinChar_cons_group]
        rw [h] at ih
        rw [ih]

theorem splitOnChar_no_sep {sep : Char} : ∀ {l : List Char},
    (∀ c ∈ l, c ≠ sep) → splitOnChar sep l = [l] := by
  intro l
  induction l with
  | nil => intro _; rfl
  | cons c cs ih =>
    intro h
    have hc : c ≠ sep := h c (List.mem_cons_self c cs)
    have hcs := ih fun x hx => h x (List.mem_cons_of_mem c hx)
    rw [splitOnChar_cons_ne cs hc hcs]

theorem splitOnChar_group {sep : Char} : ∀ {l1 : List Char} (l2 : List Char),
    (∀ c ∈ l1, c ≠ sep) →
    splitOnChar sep (l1 ++ sep :: l2) = l1 :: splitOnChar sep l2 := by
  intro l1
  induction l1 with
  | nil => intro l2 _; simpa using splitOnChar_sep_cons sep l2
  | cons c cs ih =>
    intro l2 h
    have hc : c ≠ sep := h c (List.mem_cons_self c cs)
    have hcs := ih l2 fun x hx => h x (List.mem_cons_of_mem c hx)
    rw [List.cons_append, splitOnChar_cons_ne _ hc hcs]

theorem splitOnChar_colon_arnNew (c t : String)
    (hc : ∀ ch ∈ c.data, ch ≠ ':') (ht : ∀ ch ∈ t.data, ch ≠ ':') :
    splitOnChar ':' (mkTaskArnNew c t).data =
      ["arn".data, "aws".data, "ecs".data, "region".data, "account".data,
       "task/".data ++ c.data ++ '/' :: t.data] := by
  have hdata : (mkTaskArnNew c t).data =
      "arn".data ++ ':' :: ("aws".data ++ ':' :: ("ecs".data ++ ':' ::
        ("region".data ++ ':' :: ("account".data ++ ':' ::
          ("task/".data ++ c.data ++ '/' :: t.data))))) := by
    simp [mkTaskArnNew, String.data_append]
  rw [hdata]
  rw [splitOnChar_group _ (by decide), splitOnChar_group _ (by decide),
    splitOnChar_group _ (by decide), splitOnChar_group _ (by decide),
    splitOnChar_group _ (by decide)]
  rw [splitOnChar_no_sep]
  intro ch hch
  rcases List.mem_append.1 hch with h | h
  · rcases List.mem_append.1 h with h | h
    · exact (by decide : ∀ x ∈ "task/".data, x ≠ ':') ch h
    · exact hc ch h
  · rcases List.mem_cons.1 h with h | h
    · subst h; decide
    · exact ht ch h

theorem arnResource_arnNew (c t : String)
    (hc : ∀ ch ∈ c.data, ch ≠ ':') (ht : ∀ ch ∈ t.data, ch ≠ ':') :
    arnResource (mkTaskArnNew c t) =
      String.mk ("task/".data ++ c.data ++ '/' :: t.data) := by
  rw [arnResource, splitOnChar_colon_arnNew c t hc ht]
  rfl

theorem taskUuid_arnNew (c t : String)
    (hc : ∀ ch ∈ c.data, ch ≠ ':' ∧ ch ≠ '/')
    (ht : ∀ ch ∈ t.data, ch ≠ ':' ∧ ch ≠ '/') :
    taskUuid (mkTaskArnNew c t) = some c := by
  rw [taskUuid, arnResource_arnNew c t (fun ch h => (hc ch h).1)
    (fun ch h => (ht ch h).1)]
  have hdata : ("task/".data ++ c.data ++ '/' :: t.data : List Char) =
      "task".data ++ '/' :: (c.data ++ '/' :: t.data) := by simp
  rw [pySplit]
  show ((splitOnChar '/' ("task/".data ++ c.data ++ '/' :: t.data)).map
    (fun cs => String.mk cs))[1]? = some c
  rw [hdata]
  rw [splitOnChar_group _ (by decide), splitOnChar_group _ (fun ch h => (hc ch h).2),
    splitOnChar_no_sep (fun ch h => (ht ch h).2)]
  rfl

theorem splitOnChar_colon_arnOld (t : String)
    (ht : ∀ ch ∈ t.data, ch ≠ ':') :
    splitOnChar ':' (mkTaskArnOld t).data =
      ["arn".data, "aws".data, "ecs".data, "region".data, "account".data,
       "task/".data ++ t.data] := by
  have hdata : (mkTaskArnOld t).data =
      "arn".data ++ ':' :: ("aws".data ++ ':' :: ("ecs".data ++ ':' ::
        ("region".data ++ ':' :: ("account".data ++ ':' ::
          ("task/".data ++ t.data))))) := by
    simp [mkTaskArnOld, String.data_append]
  rw [hdata]
  rw [splitOnChar_group _ (by decide), splitOnChar_group _ (by decide),
    splitOnChar_group _ (by decide), splitOnChar_group _ (by decide),
    splitOnChar_group _ (by decide)]
  rw [splitOnChar_no_sep]
  intro ch hch
  rcases List.mem_append.1 hch with h | h
  · exact (by decide : ∀ x ∈ "task/".data, x ≠ ':') ch h
  · exact ht ch h

theorem taskUuid_arnOld (t : String)
    (ht : ∀ ch ∈ t.data, ch ≠ ':' ∧ ch ≠ '/') :
    taskUuid (mkTaskArnOld t) = some t := by
  rw [taskUuid, arnResource, splitOnChar_colon_arnOld t (fun ch h => (ht ch h).1)]
  have hjoin : joinChar ':'
      ((["arn".data, "aws".data, "ecs".data, "region".data, "account".data,
        "task/".data ++ t.data]).drop 5) = "task/".data ++ t.data := rfl
  rw [hjoin]
  have hdata : ("task/".data ++ t.data : List Char) =
      "task".data ++ '/' :: t.data := by simp
  rw [pySplit]
  show ((splitOnChar '/' (String.mk ("task/".data ++ t.data)).data).map
    (fun cs => String.mk cs))[1]? = some t
  show ((splitOnChar '/' ("task/".data ++ t.data)).map
    (fun cs => String.mk cs))[1]? = some t
  rw [hdata]
  rw [splitOnChar_group _ (by decide), splitOnChar_no_sep (fun ch h => (ht ch h).2)]
  rfl

theorem intercalate_three (a b c : String) :
    String.intercalate "/" [a, b, c] = a ++ "/" ++ b ++ "/" ++ c := by
  apply String.ext
  simp [String.intercalate, String.intercalate.go, String.data_append]

/-! ## Lemmas about the provisioned-state model -/

theorem mem_createOrGet_self (x : String) (l : List String) :
    x ∈ createOrGet x l := by
  unfold createOrGet
  split
  · assumption
  · simp

theorem mem_createOrGet_mono {x : String} (y : String) {l : List String}
    (h : x ∈ l) : x ∈ createOrGet y l := by
  unfold createOrGet
  split
  · exact h
  · simp [h]

theorem createOrGet_of_mem {x : String} {l : List String} (h : x ∈ l) :
    createOrGet x l = l := by
  simp [createOrGet, h]

/-! ## Claim C1: ARN-to-instance-id extraction -/

/-- C1, counterexample: on the ARN form given by the claim,
`arn:aws:ecs:region:account:task/cluster-name/abcdef0123456789`, the extraction
of `run` (second path segment of the resource portion) yields the cluster-name
segment, not the instance id `abcdef0123456789`. -/
theorem taskUuid_claim_counterexample :
    taskUuid "arn:aws:ecs:region:account:task/cluster-name/abcdef0123456789" =
      some "cluster-name" ∧
    taskUuid "arn:aws:ecs:region:account:task/cluster-name/abcdef0123456789" ≠
      some "abcdef0123456789" := by
  constructor
  · decide
  · decide

/-- C1, amended: for a new-format ECS task ARN
`arn:aws:ecs:region:account:task/cluster-name/instance-id` the extraction of
`run` yields the cluster-name segment (the second path segment of the resource
portion); it yields the instance id exactly for old-format ARNs
`arn:aws:ecs:region:account:task/instance-id`, whose resource portion has a
single path segment after the resource type. -/
theorem taskUuid_amended (cluster tid : String)
    (hc : ∀ ch ∈ cluster.data, ch ≠ ':' ∧ ch ≠ '/')
    (ht : ∀ ch ∈ tid.data, ch ≠ ':' ∧ ch ≠ '/') :
    taskUuid (mkTaskArnNew cluster tid) = some cluster ∧
    taskUuid (mkTaskArnOld tid) = some tid :=
  ⟨taskUuid_arnNew cluster tid hc ht, taskUuid_arnOld tid ht⟩

/-- C1, witness for the amended theorem at the claim's concrete components. -/
theorem taskUuid_amended_witness :
    taskUuid (mkTaskArnNew "cluster-name" "abcdef0123456789") = some "cluster-name" ∧
    taskUuid (mkTaskArnOld "abcdef0123456789") = some "abcdef0123456789" :=
  taskUuid_amended "cluster-name" "abcdef0123456789" (by decide) (by decide)

/-! ## Claim C8: defaults of the run/launch subcommand options -/

/-- C8, counterexample: the memory, Fargate CPU, Fargate memory and image
options of the `run`/`launch` subcommand have no default value at all (Python
`None`), so not every option's default is derived from the module name. -/
theorem runParserDefaults_counterexample :
    runParserDefaults.image = none ∧ runParserDefaults.memory = none ∧
    runParserDefaults.fargate_cpu = none ∧ runParserDefaults.fargate_memory = none ∧
    (runParserDefaults.image).isSome = false := by
  decide

/-- C8, amended: the execution-role, task-role and security-group options
default to the module name `aegea.ecs`, and the cluster and task-name options
to the module name with dots replaced by underscores (`aegea_ecs`); the
memory, Fargate CPU, Fargate memory and image options default to `None`. -/
theorem runParserDefaults_amended :
    runParserDefaults.execution_role = moduleName ∧
    runParserDefaults.task_role = moduleName ∧
    runParserDefaults.security_group = moduleName ∧
    runParserDefaults.cluster = pyReplaceChar '.' '_' moduleName ∧
    runParserDefaults.task_name = pyReplaceChar '.' '_' moduleName ∧
    moduleName = "aegea.ecs" ∧
    runParserDefaults.cluster = "aegea_ecs" ∧
    runParserDefaults.task_name = "aegea_ecs" ∧
    runParserDefaults.memory = none ∧
    runParserDefaults.fargate_cpu = none ∧
    runParserDefaults.fargate_memory = none ∧
    runParserDefaults.image = none := by
  refine ⟨rfl, rfl, rfl, rfl, rfl, rfl, by decide, by decide, rfl, rfl, rfl, rfl⟩

/-! ## Claim C2: one progress line per poll iteration, stop at STOPPED -/

/-- C2: for a status sequence whose first STOPPED is at index `n`, the watch
loop of `run` performs exactly `n` iterations, each consisting of one progress
line (task ARN and current status), one one-second sleep and one describe-tasks
call; the first iteration's line carries the initial status from the run-task
response, and the describe call that returns STOPPED is the last call of the
loop — no further iteration follows. -/
theorem watch_progress_lines (args : RunArgs) (env : Env) (stat : Nat → String)
    (arn u : String) (fs : List String) (n fuel : Nat)
    (hrt : env.runTaskResp = { tasks := [{ taskArn := arn, lastStatus := stat 0 }], failures := fs })
    (hu : taskUuid arn = some u)
    (hdesc : ∀ j, env.describeResp j = Except.ok [{ taskArn := arn, lastStatus := stat (j + 1) }])
    (hpre : ∀ i, i < n → stat i ≠ "STOPPED")
    (hstop : stat n = "STOPPED")
    (hfuel : n < fuel) :
    run args env fuel =
      (provisionCalls args env ++ iterTrace stat arn args.cluster 0 n ++
        (Call.readLogs (String.intercalate "/" [args.task_name, args.task_name, u])
            args.task_name ::
          env.logEvents.map Call.printLine),
       Outcome.ok) ∧
    (iterTrace stat arn args.cluster 0 n).countP isPrintCall = n ∧
    (iterTrace stat arn args.cluster 0 n).countP isDescribeCall = n := by
  have h0 : env.runTaskResp.tasks[0]? =
      some { taskArn := arn, lastStatus := stat 0 } := by rw [hrt]; rfl
  have hw : watchLoop env.describeResp args.cluster arn fuel
      env.runTaskResp.tasks 0 = (iterTrace stat arn args.cluster 0 n, Outcome.ok) := by
    rw [hrt]
    exact watchLoop_stops hdesc n 0 fuel (fun i hi => by simpa using hpre i hi)
      (by simpa using hstop) hfuel
  refine ⟨run_eq_of_ok h0 hu hw, iterTrace_countP_print stat arn args.cluster n 0,
    iterTrace_countP_describe stat arn args.cluster n 0⟩

/-- C2, closed corollary at a concrete one-iteration environment. -/
theorem watch_progress_lines_witness :
    run runParserDefaults envW2 2 =
      (provisionCalls runParserDefaults envW2 ++
        iterTrace statW2 arnW2 runParserDefaults.cluster 0 1 ++
        (Call.readLogs (String.intercalate "/"
            [runParserDefaults.task_name, runParserDefaults.task_name, "deadbeef"])
            runParserDefaults.task_name ::
          envW2.logEvents.map Call.printLine),
       Outcome.ok) ∧
    (iterTrace statW2 arnW2 runParserDefaults.cluster 0 1).countP isPrintCall = 1 ∧
    (iterTrace statW2 arnW2 runParserDefaults.cluster 0 1).countP isDescribeCall = 1 :=
  watch_progress_lines runParserDefaults envW2 statW2 arnW2 "deadbeef" [] 1 2
    rfl (by decide) (fun j => rfl)
    (by intro i hi; have h0 : i = 0 := (by omega); simp [statW2, h0])
    rfl (by omega)

/-! ## Claim C3: the log stream name and the logging configuration -/

/-- C3: when the watch loop ends in STOPPED, the log read of `run` targets the
stream `task_name/task_name/u` (where `u` is the extracted instance id) in the
log group `task_name`, and this matches the registered container's logging
configuration: the awslogs-group option, the awslogs-stream-prefix option and
the container name all equal the task name. -/
theorem log_stream_naming (args : RunArgs) (env : Env) (fuel : Nat)
    (t0 : ECSTask) (u : String) (wtr : List Call)
    (h0 : env.runTaskResp.tasks[0]? = some t0)
    (hu : taskUuid t0.taskArn = some u)
    (hw : watchLoop env.describeResp args.cluster t0.taskArn fuel
        env.runTaskResp.tasks 0 = (wtr, Outcome.ok)) :
    Call.readLogs (args.task_name ++ "/" ++ args.task_name ++ "/" ++ u)
        args.task_name ∈ (run args env fuel).1 ∧
    (logConfigOf args env).awslogsGroup = args.task_name ∧
    (logConfigOf args env).awslogsStreamPfx = args.task_name ∧
    (containerDefnOf args env).name = args.task_name ∧
    (containerDefnOf args env).logConfiguration = logConfigOf args env ∧
    (taskDefnOf args env).containerDefinitions = [containerDefnOf args env] := by
  refine ⟨?_, rfl, rfl, rfl, rfl, rfl⟩
  rw [run_eq_of_ok h0 hu hw, ← intercalate_three]
  simp

/-- C3, closed corollary at a concrete environment. -/
theorem log_stream_naming_witness :
    Call.readLogs (runParserDefaults.task_name ++ "/" ++ runParserDefaults.task_name
        ++ "/" ++ "cafebabe") runParserDefaults.task_name
      ∈ (run runParserDefaults envW3 1).1 ∧
    (logConfigOf runParserDefaults envW3).awslogsGroup = runParserDefaults.task_name ∧
    (logConfigOf runParserDefaults envW3).awslogsStreamPfx = runParserDefaults.task_name ∧
    (containerDefnOf runParserDefaults envW3).name = runParserDefaults.task_name ∧
    (containerDefnOf runParserDefaults envW3).logConfiguration =
      logConfigOf runParserDefaults envW3 ∧
    (taskDefnOf runParserDefaults envW3).containerDefinitions =
      [containerDefnOf runParserDefaults envW3] :=
  log_stream_naming runParserDefaults envW3 1
    { taskArn := arnW3, lastStatus := "STOPPED" } "cafebabe" []
    rfl (by decide) rfl

/-! ## Claim C4: a polling error aborts immediately -/

/-- C4: if the describe-tasks call of poll iteration `j` (zero-based) raises an
error while every earlier call succeeded with a non-STOPPED status, `run`
surfaces exactly that error; the trace ends at the failing describe call —
`j + 1` describe calls in total, no retry, no further poll, and no log read. -/
theorem poll_error_aborts (args : RunArgs) (env : Env) (stat : Nat → String)
    (arn u : String) (fs : List String) (e : Err) (j fuel : Nat)
    (hrt : env.runTaskResp = { tasks := [{ taskArn := arn, lastStatus := stat 0 }], failures := fs })
    (hu : taskUuid arn = some u)
    (hok : ∀ i, i < j → env.describeResp i = Except.ok [{ taskArn := arn, lastStatus := stat (i + 1) }])
    (hne : ∀ i, i ≤ j → stat i ≠ "STOPPED")
    (herr : env.describeResp j = Except.error e)
    (hfuel : j < fuel) :
    run args env fuel =
      (provisionCalls args env ++ iterTrace stat arn args.cluster 0 (j + 1),
       Outcome.err e) ∧
    (iterTrace stat arn args.cluster 0 (j + 1)).countP isDescribeCall = j + 1 ∧
    (run args env fuel).1.countP isReadLogsCall = 0 := by
  have h0 : env.runTaskResp.tasks[0]? =
      some { taskArn := arn, lastStatus := stat 0 } := by rw [hrt]; rfl
  have hw : watchLoop env.describeResp args.cluster arn fuel
      env.runTaskResp.tasks 0 =
      (iterTrace stat arn args.cluster 0 (j + 1), Outcome.err e) := by
    rw [hrt]
    exact watchLoop_poll_error j 0 fuel (fun i hi => by simpa using hok i hi)
      (fun i hi => by simpa using hne i hi) (by simpa using herr) hfuel
  have hrun := run_eq_of_err h0 hu hw
  refine ⟨hrun, iterTrace_countP_describe stat arn args.cluster (j + 1) 0, ?_⟩
  rw [hrun, List.countP_append]
  have h1 : (provisionCalls args env).countP isReadLogsCall = 0 := rfl
  have h2 : (iterTrace stat arn args.cluster 0 (j + 1)).countP isReadLogsCall = 0 := by
    rw [List.countP_eq_zero]
    intro c hc
    rw [isPoll_not_readLogs (mem_iterTrace_isPoll hc)]
    simp
  rw [h1, h2]

/-- C4, closed corollary: the very first describe-tasks call fails. -/
theorem poll_error_aborts_witness :
    run runParserDefaults envW4 1 =
      (provisionCalls runParserDefaults envW4 ++
        iterTrace statW4 arnW4 runParserDefaults.cluster 0 1,
       Outcome.err (Err.apiError "throttled")) ∧
    (iterTrace statW4 arnW4 runParserDefaults.cluster 0 1).countP isDescribeCall = 1 ∧
    (run runParserDefaults envW4 1).1.countP isReadLogsCall = 0 :=
  poll_error_aborts runParserDefaults envW4 statW4 arnW4 "feedface" []
    (Err.apiError "throttled") 0 1 rfl (by decide)
    (fun i hi => absurd hi (by omega))
    (fun i hi => by simp [statW4]) rfl (by omega)

/-! ## Claim C5: strict call sequence of `run` -/

/-- C5: every invocation of `run` performs exactly the provisioning sequence
ensure-VPC, create-cluster, ensure-log-group, ensure execution role, ensure
task role, register-task-definition, ensure-security-group, then exactly one
run-task request with launch type FARGATE (this is the filter equation with
`provisionCalls`: each step once, in that order, never repeated), and the
trace continues only with polling calls and the final log read — after the
first log-read call only log-event prints remain, and there is at most one
log read. -/
theorem run_call_sequence (args : RunArgs) (env : Env) (fuel : Nat) (c : Call)
    (hc : c ∈ (run args env fuel).1.drop 8) :
    (run args env fuel).1.filter isProvisionCall = provisionCalls args env ∧
    (run args env fuel).1.take 8 = provisionCalls args env ∧
    (run args env fuel).1.countP isRunTaskCall = 1 ∧
    (isPollCall c = true ∨ isReadLogsCall c = true) ∧
    ((((run args env fuel).1.drop 8).dropWhile fun x => !isReadLogsCall x).drop 1).all
      isPrintCall = true ∧
    (run args env fuel).1.countP isReadLogsCall ≤ 1 :=
  ⟨run_filter_provision args env fuel, run_take_provision args env fuel,
   run_countP_runTask args env fuel, run_drop_provision args env fuel c hc,
   run_tail_after_logs args env fuel, run_countP_readLogs args env fuel⟩

/-- C5, closed corollary at a concrete environment, for the log-read call of
the trace. -/
theorem run_call_sequence_witness :
    (run runParserDefaults envW5 1).1.filter isProvisionCall =
      provisionCalls runParserDefaults envW5 ∧
    (run runParserDefaults envW5 1).1.take 8 = provisionCalls runParserDefaults envW5 ∧
    (run runParserDefaults envW5 1).1.countP isRunTaskCall = 1 ∧
    (isPollCall (Call.readLogs "aegea_ecs/aegea_ecs/0badf00d" "aegea_ecs") = true ∨
      isReadLogsCall (Call.readLogs "aegea_ecs/aegea_ecs/0badf00d" "aegea_ecs") = true) ∧
    ((((run runParserDefaults envW5 1).1.drop 8).dropWhile
        fun x => !isReadLogsCall x).drop 1).all isPrintCall = true ∧
    (run runParserDefaults envW5 1).1.countP isReadLogsCall ≤ 1 :=
  run_call_sequence runParserDefaults envW5 1
    (Call.readLogs "aegea_ecs/aegea_ecs/0badf00d" "aegea_ecs") (by decide)

/-! ## Claim C6: exactly one registration, create-or-get for the rest -/

/-- C6: every invocation of `run` issues exactly one register-task-definition
call, under family equal to the task name; in the provisioned-state model two
invocations against the same fixed names register two distinct, increasing
versions under that one family, while the cluster, log group, role and
security-group steps are create-or-get — the second invocation leaves all of
them unchanged and does not fail. -/
theorem taskdef_registration (args : RunArgs) (env : Env) (fuel : Nat) (w : World) :
    (run args env fuel).1.filter isRegisterCall =
      [Call.registerTaskDefinition (taskDefnOf args env)] ∧
    (taskDefnOf args env).family = args.task_name ∧
    (runProvisionW args w).2 = w.taskDefVersions args.task_name + 1 ∧
    (runProvisionW args (runProvisionW args w).1).2 =
      w.taskDefVersions args.task_name + 2 ∧
    (runProvisionW args w).2 < (runProvisionW args (runProvisionW args w).1).2 ∧
    (runProvisionW args (runProvisionW args w).1).1.clusters =
      (runProvisionW args w).1.clusters ∧
    (runProvisionW args (runProvisionW args w).1).1.logGroups =
      (runProvisionW args w).1.logGroups ∧
    (runProvisionW args (runProvisionW args w).1).1.roles =
      (runProvisionW args w).1.roles ∧
    (runProvisionW args (runProvisionW args w).1).1.securityGroups =
      (runProvisionW args w).1.securityGroups := by
  have hcl : createOrGet args.cluster (createOrGet args.cluster w.clusters) =
      createOrGet args.cluster w.clusters :=
    createOrGet_of_mem (mem_createOrGet_self _ _)
  have hlg : createOrGet args.task_name (createOrGet args.task_name w.logGroups) =
      createOrGet args.task_name w.logGroups :=
    createOrGet_of_mem (mem_createOrGet_self _ _)
  have hsg : createOrGet args.security_group
      (createOrGet args.security_group w.securityGroups) =
      createOrGet args.security_group w.securityGroups :=
    createOrGet_of_mem (mem_createOrGet_self _ _)
  have hr1 : createOrGet args.execution_role
      (createOrGet args.task_role (createOrGet args.execution_role w.roles)) =
      createOrGet args.task_role (createOrGet args.execution_role w.roles) :=
    createOrGet_of_mem
      (mem_createOrGet_mono _ (mem_createOrGet_self _ _))
  have hr2 : createOrGet args.task_role
      (createOrGet args.task_role (createOrGet args.execution_role w.roles)) =
      createOrGet args.task_role (createOrGet args.execution_role w.roles) :=
    createOrGet_of_mem (mem_createOrGet_self _ _)
  refine ⟨run_filter_register args env fuel, rfl, ?_, ?_, ?_, ?_, ?_, ?_, ?_⟩ <;>
    simp [runProvisionW, registerVersionW, hcl, hlg, hsg, hr1, hr2]

/-! ## Claim C7: termination exactly at STOPPED, unbounded otherwise -/

/-- C7: with describe-tasks calls that always succeed, the watch loop
terminates successfully for some fuel bound exactly when some reported status
(the initial one included) is STOPPED; when no status is ever STOPPED, the
loop consumes any fuel bound entirely, performing one full poll iteration per
fuel unit — and each iteration contains exactly one one-second sleep, so
polling continues forever at a fixed one-second interval with no iteration
count, timeout or cancellation ending it. -/
theorem watch_termination (d : Nat → Except Err (List ECSTask))
    (cluster arn : String) (stat : Nat → String)
    (hdesc : ∀ j, d j = Except.ok [{ taskArn := arn, lastStatus := stat (j + 1) }]) :
    ((∃ n, stat n = "STOPPED") ↔
      ∃ fuel, (watchLoop d cluster arn fuel
        [{ taskArn := arn, lastStatus := stat 0 }] 0).2 = Outcome.ok) ∧
    ((∀ n, stat n ≠ "STOPPED") → ∀ fuel,
      watchLoop d cluster arn fuel [{ taskArn := arn, lastStatus := stat 0 }] 0 =
        (iterTrace stat arn cluster 0 fuel, Outcome.fuelOut)) ∧
    (∀ fuel, (iterTrace stat arn cluster 0 fuel).filter isSleepCall =
      List.replicate fuel (Call.sleep 1)) := by
  refine ⟨⟨?_, ?_⟩, ?_, ?_⟩
  · intro h
    have hn := Nat.find_spec h
    have hpre : ∀ i, i < Nat.find h → stat i ≠ "STOPPED" :=
      fun i hi => Nat.find_min h hi
    refine ⟨Nat.find h + 1, ?_⟩
    rw [watchLoop_stops hdesc (Nat.find h) 0 (Nat.find h + 1)
      (fun i hi => by simpa using hpre i hi) (by simpa using hn) (by omega)]
  · rintro ⟨fuel, hok⟩
    obtain ⟨i, hi⟩ := watchLoop_ok_stopped hdesc fuel 0 hok
    exact ⟨i, by simpa using hi⟩
  · intro hnostop fuel
    exact watchLoop_forever hdesc hnostop fuel 0
  · intro fuel
    exact iterTrace_filter_sleep stat arn cluster fuel 0

/-- C7, closed corollary: with statuses that never report STOPPED, three fuel
units produce three full poll iterations and an exhausted fuel bound. -/
theorem watch_termination_witness :
    watchLoop dW7 "aegea_ecs" arnW7 3
      [{ taskArn := arnW7, lastStatus := statW7 0 }] 0 =
      (iterTrace statW7 arnW7 "aegea_ecs" 0 3, Outcome.fuelOut) :=
  (watch_termination dW7 "aegea_ecs" arnW7 statW7 (fun j => rfl)).2.1
    (fun n => by simp [statW7]) 3

/-! ## Claim C9: empty run-task response and the ignored failures field -/

/-- C9: when the run-task response carries an empty tasks list, `run` raises
the unguarded list-index error right after the provisioning calls — before any
describe-tasks call, progress line or log read — and no reported launch error
is surfaced instead; moreover the failures field of the response is never
inspected: replacing it by any other value leaves the behaviour of `run`
unchanged. -/
theorem runtask_empty_tasks (args : RunArgs) (env : Env) (fuel : Nat)
    (fs2 : List String)
    (h : env.runTaskResp.tasks = []) :
    run args env fuel = (provisionCalls args env, Outcome.err Err.indexError) ∧
    (run args env fuel).1.countP isDescribeCall = 0 ∧
    (run args env fuel).1.countP isPrintCall = 0 ∧
    (run args env fuel).1.countP isReadLogsCall = 0 ∧
    run args
      { env with runTaskResp := { tasks := env.runTaskResp.tasks, failures := fs2 } }
      fuel = run args env fuel := by
  have h0 : env.runTaskResp.tasks[0]? = none := by rw [h]; rfl
  have hrun : run args env fuel =
      (provisionCalls args env, Outcome.err Err.indexError) :=
    run_eq_of_noTask h0
  refine ⟨hrun, by rw [hrun]; rfl, by rw [hrun]; rfl, by rw [hrun]; rfl, rfl⟩

/-- C9, closed corollary at a concrete rejected submission. -/
theorem runtask_empty_tasks_witness :
    run runParserDefaults envW9 4 =
      (provisionCalls runParserDefaults envW9, Outcome.err Err.indexError) ∧
    (run runParserDefaults envW9 4).1.countP isDescribeCall = 0 ∧
    (run runParserDefaults envW9 4).1.countP isPrintCall = 0 ∧
    (run runParserDefaults envW9 4).1.countP isReadLogsCall = 0 ∧
    run runParserDefaults
      { envW9 with
        runTaskResp := { tasks := envW9.runTaskResp.tasks, failures := ["OTHER"] } }
      4 = run runParserDefaults envW9 4 :=
  runtask_empty_tasks runParserDefaults envW9 4 ["OTHER"] rfl

/-! ## Claim C10: the tasks listing issues two queries when unfiltered -/

/-- C10: with no explicit task ids and no desired-status filter, the `tasks`
subcommand issues exactly two paginated list-tasks queries — the first without
a desired-status key and the second with desired status STOPPED — and
describes and displays the concatenation of their results in that order; with
a desired-status filter, only the single filtered query is issued. -/
theorem tasks_listing (argsA : TasksArgs) (envA : TasksEnv)
    (argsB : TasksArgs) (envB : TasksEnv) (d : String)
    (hA : argsA.tasks = []) (hdsA : argsA.desired_status = none)
    (hneA : (envA.listTasks (tasksQuery argsA) ++
      envA.listTasks { tasksQuery argsA with desiredStatus := some "STOPPED" }) ≠ [])
    (hB : argsB.tasks = []) (hdsB : argsB.desired_status = some d) (hd : d ≠ "")
    (hneB : envB.listTasks (tasksQuery argsB) ≠ []) :
    (tasksQuery argsA).desiredStatus = none ∧
    tasksCmd argsA envA =
      ([TCall.listTasks (tasksQuery argsA),
        TCall.listTasks { tasksQuery argsA with desiredStatus := some "STOPPED" },
        TCall.describeTasks argsA.cluster
          (envA.listTasks (tasksQuery argsA) ++
            envA.listTasks { tasksQuery argsA with desiredStatus := some "STOPPED" }),
        TCall.pageOutput],
       envA.describeTasks argsA.cluster
         (envA.listTasks (tasksQuery argsA) ++
           envA.listTasks { tasksQuery argsA with desiredStatus := some "STOPPED" })) ∧
    (tasksQuery argsB).desiredStatus = some d ∧
    tasksCmd argsB envB =
      ([TCall.listTasks (tasksQuery argsB),
        TCall.describeTasks argsB.cluster (envB.listTasks (tasksQuery argsB)),
        TCall.pageOutput],
       envB.describeTasks argsB.cluster (envB.listTasks (tasksQuery argsB))) := by
  have hqA : (tasksQuery argsA).desiredStatus = none := by
    simp [tasksQuery, hdsA, truthyStr]
  have htrA : truthyStr argsA.desired_status = false := by rw [hdsA]; rfl
  have htrB : truthyStr argsB.desired_status = true := by
    rw [hdsB]; simp [truthyStr, hd]
  have hdb : (d == "") = false := by simpa using hd
  have hqB : (tasksQuery argsB).desiredStatus = some d := by
    simp [tasksQuery, hdsB, truthyStr, hdb]
  refine ⟨hqA, ?_, hqB, ?_⟩
  · rw [tasksCmd]
    rw [hA]
    simp only [List.isEmpty_nil, if_true, htrA, Bool.false_eq_true, if_false]
    rw [if_neg (by simpa using hneA)]
    rfl
  · rw [tasksCmd]
    rw [hB]
    simp only [List.isEmpty_nil, if_true, htrB, if_true]
    rw [if_neg (by simpa using hneB)]
    rfl

/-- C10, closed corollary at concrete listings. -/
theorem tasks_listing_witness :
    (tasksQuery argsWA).desiredStatus = none ∧
    tasksCmd argsWA envWA =
      ([TCall.listTasks (tasksQuery argsWA),
        TCall.listTasks { tasksQuery argsWA with desiredStatus := some "STOPPED" },
        TCall.describeTasks argsWA.cluster
          (envWA.listTasks (tasksQuery argsWA) ++
            envWA.listTasks { tasksQuery argsWA with desiredStatus := some "STOPPED" }),
        TCall.pageOutput],
       envWA.describeTasks argsWA.cluster
         (envWA.listTasks (tasksQuery argsWA) ++
           envWA.listTasks { tasksQuery argsWA with desiredStatus := some "STOPPED" })) ∧
    (tasksQuery argsWB).desiredStatus = some "RUNNING" ∧
    tasksCmd argsWB envWB =
      ([TCall.listTasks (tasksQuery argsWB),
        TCall.describeTasks argsWB.cluster (envWB.listTasks (tasksQuery argsWB)),
        TCall.pageOutput],
       envWB.describeTasks argsWB.cluster (envWB.listTasks (tasksQuery argsWB))) :=
  tasks_listing argsWA envWA argsWB envWB "RUNNING" rfl rfl (by decide) rfl rfl
    (by decide) (by decide)

end AegeaECS
